import Mathlib

/-!
Shallow embedding of the ShoeMart storefront backend (Express + Mongoose).

The database is modelled as lists of documents held in an `AppState`;
each request handler is a function from the state (plus the decoded
request) to a new state and an HTTP response.  Mongoose operations are
translated literally:

* `Model.findById(x)`   becomes `List.find?` on the id field;
* `doc.save()`          becomes replacing the documents with that id;
* `Array.findIndex`     becomes `findIndexJs` (returning `Option Nat`
  for the JavaScript `-1` convention);
* `arr[i]` / `arr.set`  become `List.getD` / `List.set`.

Numbers are `Int` (stock, quantities, ratings) or `Rat` (prices,
average rating), matching the JavaScript number semantics used by the
code on these fields (all arithmetic involved is exact).
-/

namespace ShoeMart

/-- One entry of `productSchema.sizes`: `{size: Number, stock: Number}`. -/
structure SizeEntry where
  size : Int
  stock : Int
deriving DecidableEq

/-- `productSchema` (the fields the verified routes touch). -/
structure Product where
  id : Nat
  name : String
  sizes : List SizeEntry
  averageRating : Rat
  totalReviews : Nat
deriving DecidableEq

/-- `paymentInfo.paymentStatus` enum of `orderSchema`. -/
inductive PaymentStatus where
  | pending
  | paid
  | failed
  | refunded
deriving DecidableEq

/-- `orderStatus` enum of `orderSchema`. -/
inductive OrderStatus where
  | processing
  | shipped
  | delivered
  | cancelled
deriving DecidableEq

/-- One snapshot line item of `orderSchema.items`. -/
structure OrderItem where
  product : Nat
  name : String
  price : Rat
  size : Int
  quantity : Int
  image : Option String
deriving DecidableEq

/-- `orderSchema.paymentInfo`. -/
structure PaymentInfo where
  stripePaymentIntentId : Option String
  paymentStatus : PaymentStatus
deriving DecidableEq

/-- `orderSchema.shippingInfo`. -/
structure ShippingInfo where
  firstName : String
  lastName : String
  email : String
  phone : String
  address : String
  city : String
  state : String
  zipCode : String
  country : String
deriving DecidableEq

/-- `orderSchema.pricing`. -/
structure Pricing where
  subtotal : Rat
  shipping : Rat
  tax : Rat
  total : Rat
deriving DecidableEq

/-- `orderSchema`.  `user = none` is a guest order (schema default null). -/
structure Order where
  id : Nat
  user : Option Nat
  orderNumber : String
  items : List OrderItem
  shippingInfo : ShippingInfo
  pricing : Pricing
  paymentInfo : PaymentInfo
  orderStatus : OrderStatus
deriving DecidableEq

/-- `reviewSchema` (the fields the verified routes touch). -/
structure Review where
  id : Nat
  product : Nat
  user : Nat
  rating : Int
  helpful : Int
  helpfulBy : List Nat
deriving DecidableEq

/-- `userSchema.role`. -/
inductive Role where
  | user
  | admin
deriving DecidableEq

/-- A stored user (only what the admin checks read). -/
structure AuthUser where
  id : Nat
  role : Role
deriving DecidableEq

/-- The database contents the payment routes read and write. -/
structure AppState where
  products : List Product
  orders : List Order
deriving DecidableEq

/-- JavaScript `Array.prototype.findIndex`, with `none` for `-1`. -/
def findIndexJs (p : α → Bool) : List α → Option Nat
  | [] => none
  | a :: as => if p a then some 0 else (findIndexJs p as).map (· + 1)

/-- `Product.findById`: first document whose id matches. -/
def Product.findById (ps : List Product) (pid : Nat) : Option Product :=
  ps.find? (fun p => p.id == pid)

/-- `product.save()`: persist the in-memory document over the stored one. -/
def saveProduct (ps : List Product) (p : Product) : List Product :=
  ps.map (fun q => if q.id == p.id then p else q)

/-- `Order.findById`. -/
def Order.findById (os : List Order) (oid : Nat) : Option Order :=
  os.find? (fun o => o.id == oid)

/-- `order.save()` / `Order.findByIdAndUpdate`. -/
def saveOrder (os : List Order) (o : Order) : List Order :=
  os.map (fun q => if q.id == o.id then o else q)

/-- Observer: the first size entry matching `sz` (the entry
`findIndex`-based code reads and writes). -/
def findSize (sizes : List SizeEntry) (sz : Int) : Option SizeEntry :=
  sizes.find? (fun s => s.size == sz)

/-- Observer: the stock of product `pid` at size `sz`, when both resolve. -/
def stockOf (ps : List Product) (pid : Nat) (sz : Int) : Option Int :=
  (Product.findById ps pid).bind (fun p => (findSize p.sizes sz).map (fun e => e.stock))

/-- The error responses of `POST /create-order` (paymentRoutes). -/
inductive CreateOrderError where
  | missingFields
  | productNotFound (requestName : String)
  | sizeUnavailable (size : Int) (productName : String)
  | insufficientStock (productName : String) (size : Int) (available : Int)
deriving DecidableEq

/-- The HTTP status each error branch responds with
(`res.status(...)` calls at paymentRoutes create-order). -/
def CreateOrderError.toStatus : CreateOrderError → Nat
  | .missingFields => 400
  | .productNotFound _ => 404
  | .sizeUnavailable _ _ => 400
  | .insufficientStock _ _ _ => 400

/-- One element of the request body `items[]` (client-side snapshot
`item.product` plus `item.size`, `item.quantity`). -/
structure ReqItem where
  productId : Nat
  productName : String
  productPrice : Rat
  productImages : List String
  size : Int
  quantity : Int
deriving DecidableEq

/-- Decoded request of `POST /create-order`: body fields (absent =
`none`) and the user id decoded from an optional bearer token
(`none` = guest / failed verification). -/
structure CreateOrderReq where
  items : Option (List ReqItem)
  shippingInfo : Option ShippingInfo
  pricing : Option Pricing
  paymentIntentId : Option String
  auth : Option Nat
deriving DecidableEq

/-- One iteration of the create-order stock loop: look the product up,
`findIndex` the size, reject on missing product / missing size /
insufficient stock, otherwise decrement and `save()`. -/
def reserveItem (ps : List Product) (it : ReqItem) : Except CreateOrderError (List Product) :=
  match Product.findById ps it.productId with
  | none => .error (.productNotFound it.productName)
  | some product =>
    match findIndexJs (fun s => s.size == it.size) product.sizes with
    | none => .error (.sizeUnavailable it.size product.name)
    | some sizeIndex =>
      let entry := product.sizes.getD sizeIndex ⟨0, 0⟩
      if entry.stock < it.quantity then
        .error (.insufficientStock product.name it.size entry.stock)
      else
        .ok (saveProduct ps { product with
          sizes := product.sizes.set sizeIndex { entry with stock := entry.stock - it.quantity } })

/-- The `for (const item of items)` stock loop.  Each successful
iteration persists its product before the next one runs; the first
failure returns with everything already persisted left in place. -/
def reserveLoop (ps : List Product) : List ReqItem → List Product × Option CreateOrderError
  | [] => (ps, none)
  | it :: rest =>
    match reserveItem ps it with
    | .error e => (ps, some e)
    | .ok ps2 => reserveLoop ps2 rest

/-- Response of `POST /create-order`: 201 with the order, or an error. -/
inductive CreateOrderResp where
  | ok (order : Order)
  | err (e : CreateOrderError)
deriving DecidableEq

def CreateOrderResp.toStatus : CreateOrderResp → Nat
  | .ok _ => 201
  | .err e => e.toStatus

/-- `POST /create-order`: validate presence of `items`, `shippingInfo`,
`pricing`; run the stock loop; on success `Order.create` with the
client snapshot items, `paymentInfo.paymentStatus` hard-coded `'paid'`,
and `orderStatus` left to its schema default `'processing'`. -/
def createOrder (st : AppState) (req : CreateOrderReq) (newOrderId : Nat)
    (orderNumber : String) : AppState × CreateOrderResp :=
  match req.items, req.shippingInfo, req.pricing with
  | some items, some shippingInfo, some pricing =>
    match reserveLoop st.products items with
    | (ps2, some e) => ({ st with products := ps2 }, .err e)
    | (ps2, none) =>
      let order : Order := {
        id := newOrderId
        user := req.auth
        orderNumber := orderNumber
        items := items.map (fun it => {
          product := it.productId
          name := it.productName
          price := it.productPrice
          size := it.size
          quantity := it.quantity
          image := it.productImages.head? })
        shippingInfo := shippingInfo
        pricing := pricing
        paymentInfo := {
          stripePaymentIntentId := req.paymentIntentId
          paymentStatus := .paid }
        orderStatus := .processing }
      ({ products := ps2, orders := st.orders ++ [order] }, .ok order)
  | _, _, _ => (st, .err .missingFields)

/-- One iteration of the cancel-order restore loop: missing product or
missing size is tolerated silently, otherwise increment and `save()`. -/
def restoreItem (ps : List Product) (it : OrderItem) : List Product :=
  match Product.findById ps it.product with
  | none => ps
  | some product =>
    match findIndexJs (fun s => s.size == it.size) product.sizes with
    | none => ps
    | some sizeIndex =>
      let entry := product.sizes.getD sizeIndex ⟨0, 0⟩
      saveProduct ps { product with
        sizes := product.sizes.set sizeIndex { entry with stock := entry.stock + it.quantity } }

/-- The `for (const item of order.items)` restore loop of the cancel
handlers. -/
def restoreLoop (ps : List Product) : List OrderItem → List Product
  | [] => ps
  | it :: rest => restoreLoop (restoreItem ps it) rest

/-- Authentication outcome of the owner-cancel endpoint: no header
(401), `jwt.verify` threw (caught by the outer catch, 500), or a
decoded user id. -/
inductive CancelAuth where
  | noToken
  | invalidToken
  | tok (userId : Nat)
deriving DecidableEq

/-- `PATCH /orders/:id/cancel` (owner cancel).  The ownership check
calls `order.user.toString()`; on a guest order (`user` null) that
dereferences null, throws, and is converted to a 500 by the
handler's catch block.  Returns the new state and the HTTP status. -/
def cancelOrder (st : AppState) (auth : CancelAuth) (oid : Nat) : AppState × Nat :=
  match auth with
  | .noToken => (st, 401)
  | .invalidToken => (st, 500)
  | .tok userId =>
    match Order.findById st.orders oid with
    | none => (st, 404)
    | some o =>
      match o.user with
      | none => (st, 500)
      | some ownerId =>
        if ownerId ≠ userId then (st, 403)
        else if o.orderStatus = .cancelled then (st, 400)
        else if o.orderStatus ≠ .processing then (st, 400)
        else
          let ps2 := restoreLoop st.products o.items
          let o2 := { o with
            orderStatus := .cancelled
            paymentInfo := { o.paymentInfo with paymentStatus := .refunded } }
          ({ products := ps2, orders := saveOrder st.orders o2 }, 200)

/-- Authentication outcome of the admin endpoints: no header (401),
`jwt.verify` threw (500), user record gone (403 via `!user`), or the
stored user. -/
inductive AdminAuth where
  | noToken
  | invalidToken
  | userNotFound
  | found (u : AuthUser)
deriving DecidableEq

/-- The `runValidators` enum check on `orderStatus`. -/
def parseOrderStatus (s : String) : Option OrderStatus :=
  if s = "processing" then some .processing
  else if s = "shipped" then some .shipped
  else if s = "delivered" then some .delivered
  else if s = "cancelled" then some .cancelled
  else none

/-- `PATCH /admin/orders/:id`: admin gate, then
`Order.findByIdAndUpdate(id, {orderStatus}, {runValidators})`.
An enum violation throws a ValidationError, caught as 500.  The
handler never touches products or `paymentInfo`. -/
def adminUpdateOrderStatus (st : AppState) (auth : AdminAuth) (oid : Nat)
    (statusStr : String) : AppState × Nat :=
  match auth with
  | .noToken => (st, 401)
  | .invalidToken => (st, 500)
  | .userNotFound => (st, 403)
  | .found u =>
    if u.role ≠ .admin then (st, 403)
    else
      match parseOrderStatus statusStr with
      | none => (st, 500)
      | some newStatus =>
        match Order.findById st.orders oid with
        | none => (st, 404)
        | some o =>
          ({ st with orders := saveOrder st.orders { o with orderStatus := newStatus } }, 200)

/-- JavaScript `Math.round` (round half toward positive infinity). -/
def mathRound (x : Rat) : Int := ⌊x + 1 / 2⌋

/-- `updateProductRating` (reviewRoutes): recompute `averageRating` and
`totalReviews` of a product from the full current review set. -/
def updateProductRating (ps : List Product) (reviews : List Review) (productId : Nat) :
    List Product :=
  let rs := reviews.filter (fun r => r.product == productId)
  if rs.length = 0 then
    ps.map (fun p => if p.id == productId then
      { p with averageRating := 0, totalReviews := 0 } else p)
  else
    let totalRating : Rat := rs.foldl (fun sum r => sum + (r.rating : Rat)) 0
    let averageRating := totalRating / (rs.length : Rat)
    ps.map (fun p => if p.id == productId then
      { p with
        averageRating := (mathRound (averageRating * 10) : Rat) / 10
        totalReviews := rs.length } else p)

/-- `Review.create` with the schema defaults `helpful: 0`,
`helpfulBy: []`. -/
def mkReview (id product user : Nat) (rating : Int) : Review :=
  { id := id, product := product, user := user, rating := rating,
    helpful := 0, helpfulBy := [] }

/-- `PATCH /:id/helpful` toggle body: if the user is already in
`helpfulBy`, filter them out and decrement (floored at 0); otherwise
push them and increment. -/
def toggleHelpful (r : Review) (userId : Nat) : Review :=
  if userId ∈ r.helpfulBy then
    { r with
      helpfulBy := r.helpfulBy.filter (fun id => id ≠ userId)
      helpful := max 0 (r.helpful - 1) }
  else
    { r with
      helpfulBy := r.helpfulBy ++ [userId]
      helpful := r.helpful + 1 }

/-- The helpful-vote invariant: `helpfulBy` is a set (no duplicates)
and `helpful` equals its cardinality. -/
def helpfulInv (r : Review) : Prop :=
  r.helpfulBy.Nodup ∧ r.helpful = (r.helpfulBy.length : Int)

/-- Total quantity the items of an order request at product `pid`,
size `sz`. -/
def itemsQty (items : List OrderItem) (pid : Nat) (sz : Int) : Int :=
  ((items.filter (fun it => it.product == pid && it.size == sz)).map
    (fun it => it.quantity)).sum

/-- The spec's aggregation formula, stated independently of the code:
zero ratings give 0, otherwise the arithmetic mean rounded to one
decimal (half up). -/
def specAverage (ratings : List Int) : Rat :=
  if ratings.length = 0 then 0
  else (mathRound (((ratings.map (fun r : Int => (r : Rat))).sum / (ratings.length : Rat)) * 10) : Rat) / 10

/-- `Review.findByIdAndDelete`: remove the review with the given id. -/
def deleteReview (reviews : List Review) (rid : Nat) : List Review :=
  reviews.filter (fun r => r.id != rid)

/-- Observer: the created order of a create-order response, if any. -/
def CreateOrderResp.orderOut : CreateOrderResp → Option Order
  | .ok o => some o
  | .err _ => none

/-! ### Concrete fixtures used by the witnesses -/

def wShipping : ShippingInfo :=
  ⟨"Ada", "Lovelace", "ada@example.com", "555", "1 Main St", "Springfield", "IL", "62701", "US"⟩

def wPricing : Pricing := ⟨100, 10, 5, 115⟩

def wProduct : Product := ⟨1, "Runner", [⟨10, 3⟩, ⟨11, 0⟩], 0, 0⟩

def wItem : ReqItem := ⟨1, "Runner", 100, ["img.png"], 10, 2⟩

def wItemGhost : ReqItem := ⟨2, "Ghost", 50, [], 9, 1⟩

def wItemBadSize : ReqItem := ⟨1, "Runner", 100, ["img.png"], 9, 1⟩

def wReq : CreateOrderReq := ⟨some [wItem], some wShipping, some wPricing, some "pi_123", some 7⟩

def wReq2 : CreateOrderReq := ⟨some [wItem, wItemGhost], some wShipping, some wPricing, none, none⟩

def wReqBadSize : CreateOrderReq := ⟨some [wItemBadSize], some wShipping, some wPricing, none, none⟩

def wReqLateBadSize : CreateOrderReq :=
  ⟨some [wItem, wItemBadSize], some wShipping, some wPricing, none, none⟩

def wReqLateShort : CreateOrderReq :=
  ⟨some [wItem, wItem], some wShipping, some wPricing, none, none⟩

def wState : AppState := ⟨[wProduct], []⟩

def wOrderItem : OrderItem := ⟨1, "Runner", 100, 10, 2, some "img.png"⟩

def wOrder : Order :=
  ⟨5, some 7, "ORD-9", [wOrderItem], wShipping, wPricing, ⟨some "pi_9", .paid⟩, .processing⟩

def wGuestOrder : Order :=
  ⟨6, none, "ORD-G", [wOrderItem], wShipping, wPricing, ⟨none, .paid⟩, .processing⟩

def wStateOrders : AppState := ⟨[wProduct], [wOrder, wGuestOrder]⟩

def wAdmin : AuthUser := ⟨99, .admin⟩

def wReview5 : Review := ⟨1, 1, 7, 5, 0, []⟩
def wReview4 : Review := ⟨2, 1, 8, 4, 0, []⟩
def wReview3 : Review := ⟨3, 1, 9, 3, 0, []⟩

def wReviews : List Review := [wReview5, wReview4, wReview3]

/-! ### Characterising the findIndex-then-set pattern -/

/-- Rewriting the source's findIndex-then-set-at-index pattern: apply
`f` to the first element satisfying `p`. -/
def updateFirst (p : α → Bool) (f : α → α) : List α → List α
  | [] => []
  | a :: as => if p a then f a :: as else a :: updateFirst p f as

theorem find?_cons_pos {p : α → Bool} {a : α} (h : p a = true) (l : List α) :
    (a :: l).find? p = some a := by
  simp [List.find?, h]

theorem find?_cons_neg {p : α → Bool} {a : α} (h : p a = false) (l : List α) :
    (a :: l).find? p = l.find? p := by
  simp [List.find?, h]

theorem findIndexJs_eq_none {p : α → Bool} :
    ∀ {l : List α}, findIndexJs p l = none ↔ l.find? p = none := by
  intro l
  induction l with
  | nil => simp [findIndexJs]
  | cons a as ih =>
    cases hp : p a
    · simp [findIndexJs, hp, find?_cons_neg hp, ih]
    · simp [findIndexJs, hp, find?_cons_pos hp]

theorem find?_of_findIndexJs {p : α → Bool} (d : α) :
    ∀ {l : List α} {i : Nat}, findIndexJs p l = some i →
      l.find? p = some (l.getD i d) := by
  intro l
  induction l with
  | nil => intro i h; simp [findIndexJs] at h
  | cons a as ih =>
    intro i h
    cases hp : p a
    · rw [findIndexJs] at h
      simp only [hp, Bool.false_eq_true, if_false] at h
      cases hfi : findIndexJs p as with
      | none => rw [hfi] at h; simp at h
      | some j =>
        rw [hfi] at h
        simp only [Option.map_some'] at h
        cases h
        rw [find?_cons_neg hp, ih hfi]
        simp [List.getD]
    · rw [findIndexJs] at h
      simp only [hp, if_true] at h
      cases h
      simp [find?_cons_pos hp, List.getD]

theorem set_of_findIndexJs {p : α → Bool} (f : α → α) (d : α) :
    ∀ {l : List α} {i : Nat}, findIndexJs p l = some i →
      l.set i (f (l.getD i d)) = updateFirst p f l := by
  intro l
  induction l with
  | nil => intro i h; simp [findIndexJs] at h
  | cons a as ih =>
    intro i h
    cases hp : p a
    · rw [findIndexJs] at h
      simp only [hp, Bool.false_eq_true, if_false] at h
      cases hfi : findIndexJs p as with
      | none => rw [hfi] at h; simp at h
      | some j =>
        rw [hfi] at h
        simp only [Option.map_some'] at h
        cases h
        simp only [updateFirst, hp, Bool.false_eq_true, if_false]
        rw [List.getD_cons_succ, List.set_cons_succ, ih hfi]
    · rw [findIndexJs] at h
      simp only [hp, if_true] at h
      cases h
      simp [updateFirst, hp, List.getD]

theorem find?_updateFirst_pos {p : α → Bool} {f : α → α}
    (hpf : ∀ a, p a = true → p (f a) = true) :
    ∀ {l : List α} {a : α}, l.find? p = some a →
      (updateFirst p f l).find? p = some (f a) := by
  intro l
  induction l with
  | nil => intro a h; simp at h
  | cons b bs ih =>
    intro a h
    cases hp : p b
    · rw [find?_cons_neg hp] at h
      simp only [updateFirst, hp, Bool.false_eq_true, if_false]
      rw [find?_cons_neg hp]
      exact ih h
    · rw [find?_cons_pos hp] at h
      cases h
      simp only [updateFirst, hp, if_true]
      rw [find?_cons_pos (hpf _ hp)]

theorem find?_updateFirst_neg {p q : α → Bool} {f : α → α}
    (h : ∀ a, p a = true → q a = false ∧ q (f a) = false) :
    ∀ l : List α, (updateFirst p f l).find? q = l.find? q := by
  intro l
  induction l with
  | nil => simp [updateFirst]
  | cons b bs ih =>
    cases hp : p b
    · simp only [updateFirst, hp, Bool.false_eq_true, if_false]
      cases hqb : q b
      · rw [find?_cons_neg hqb, find?_cons_neg hqb]
        exact ih
      · rw [find?_cons_pos hqb, find?_cons_pos hqb]
    · have hq := h b hp
      simp only [updateFirst, hp, if_true]
      rw [find?_cons_neg hq.2, find?_cons_neg hq.1]

/-! ### Persistence lemmas (`save` against `findById`) -/

theorem findById_saveProduct_self :
    ∀ {ps : List Product} {pid : Nat} {q : Product}, Product.findById ps pid = some q →
      ∀ {p2 : Product}, p2.id = pid →
        Product.findById (saveProduct ps p2) pid = some p2 := by
  intro ps
  induction ps with
  | nil => intro pid q h; simp [Product.findById] at h
  | cons a as ih =>
    intro pid q h p2 hid
    by_cases ha : a.id = pid
    · have h2 : (a.id == p2.id) = true := by simp [ha, hid]
      have h3 : (p2.id == pid) = true := by simp [hid]
      simp only [saveProduct, List.map_cons, h2, if_true, Product.findById, List.find?, h3]
    · have h1 : (a.id == pid) = false := by simp [ha]
      simp only [Product.findById, List.find?, h1] at h
      have h2 : (a.id == p2.id) = false := by simp [hid, ha]
      simp only [saveProduct, List.map_cons, h2, Bool.false_eq_true, if_false,
        Product.findById, List.find?, h1]
      exact ih h hid

theorem findById_saveProduct_ne {p2 : Product} {pid : Nat} (h : p2.id ≠ pid) :
    ∀ ps : List Product, Product.findById (saveProduct ps p2) pid = Product.findById ps pid := by
  intro ps
  induction ps with
  | nil => simp [Product.findById, saveProduct]
  | cons a as ih =>
    by_cases ha : a.id = p2.id
    · have h1 : (a.id == p2.id) = true := by simp [ha]
      have h2 : (p2.id == pid) = false := by simp [h]
      have h3 : (a.id == pid) = false := by simp [ha, h]
      simp only [saveProduct, List.map_cons, h1, if_true, Product.findById, List.find?, h2, h3]
      exact ih
    · have h1 : (a.id == p2.id) = false := by simp [ha]
      simp only [saveProduct, List.map_cons, h1, Bool.false_eq_true, if_false]
      by_cases hb : a.id = pid
      · have h2 : (a.id == pid) = true := by simp [hb]
        simp only [Product.findById, List.find?, h2]
      · have h2 : (a.id == pid) = false := by simp [hb]
        simp only [Product.findById, List.find?, h2]
        exact ih

theorem findById_saveProduct_none :
    ∀ {ps : List Product} {pid : Nat}, Product.findById ps pid = none →
      ∀ p2 : Product, Product.findById (saveProduct ps p2) pid = none := by
  intro ps
  induction ps with
  | nil => intro pid h p2; simp [Product.findById, saveProduct]
  | cons a as ih =>
    intro pid h p2
    rw [Product.findById, List.find?_eq_none] at h
    have ha' : a.id ≠ pid := by simpa using h a (by simp)
    have has : Product.findById as pid = none := by
      rw [Product.findById, List.find?_eq_none]
      intro x hx; exact h x (by simp [hx])
    by_cases hb : a.id = p2.id
    · have hp2 : p2.id ≠ pid := hb ▸ ha'
      have h1 : (a.id == p2.id) = true := by simp [hb]
      have h2 : (p2.id == pid) = false := by simp [hp2]
      simp only [saveProduct, List.map_cons, h1, if_true, Product.findById, List.find?, h2]
      exact ih has p2
    · have h1 : (a.id == p2.id) = false := by simp [hb]
      have h2 : (a.id == pid) = false := by simp [ha']
      simp only [saveProduct, List.map_cons, h1, Bool.false_eq_true, if_false,
        Product.findById, List.find?, h2]
      exact ih has p2

theorem productId_of_findById {ps : List Product} {pid : Nat} {p : Product}
    (h : Product.findById ps pid = some p) : p.id = pid := by
  have := List.find?_some h
  simpa using this

theorem stockOf_intro {ps : List Product} {pid : Nat} {sz : Int} {p : Product} {e : SizeEntry}
    (h1 : Product.findById ps pid = some p) (h2 : findSize p.sizes sz = some e) :
    stockOf ps pid sz = some e.stock := by
  simp [stockOf, h1, h2]

theorem stockOf_some_elim {ps : List Product} {pid : Nat} {sz : Int} {n : Int}
    (h : stockOf ps pid sz = some n) :
    ∃ p e, Product.findById ps pid = some p ∧ findSize p.sizes sz = some e ∧ e.stock = n := by
  obtain ⟨p, hp⟩ : ∃ p, Product.findById ps pid = some p := by
    cases hq : Product.findById ps pid
    · rw [stockOf, hq] at h; simp at h
    · exact ⟨_, rfl⟩
  rw [stockOf, hp, Option.some_bind] at h
  obtain ⟨e, he⟩ : ∃ e, findSize p.sizes sz = some e := by
    cases hq : findSize p.sizes sz
    · rw [hq] at h; simp at h
    · exact ⟨_, rfl⟩
  rw [he] at h
  exact ⟨p, e, hp, he, by simpa using h⟩

/-! ### Effect of one reservation / restore step -/

theorem reserveItem_insufficient {ps : List Product} {p : Product} {e : SizeEntry} {it : ReqItem}
    (h1 : Product.findById ps it.productId = some p)
    (h2 : findSize p.sizes it.size = some e)
    (h3 : e.stock < it.quantity) :
    reserveItem ps it = .error (.insufficientStock p.name it.size e.stock) := by
  cases hfi : findIndexJs (fun s => s.size == it.size) p.sizes with
  | none =>
    rw [findIndexJs_eq_none] at hfi
    rw [findSize, hfi] at h2
    exact absurd h2 (by simp)
  | some i =>
    have he : p.sizes.getD i ⟨0, 0⟩ = e := by
      have hf := find?_of_findIndexJs (p := fun s : SizeEntry => s.size == it.size) ⟨0, 0⟩ hfi
      rw [findSize, hf] at h2
      exact Option.some.inj h2
    simp only [reserveItem, h1, hfi, he, if_pos h3]

theorem reserveItem_ok {ps : List Product} {p : Product} {e : SizeEntry} {it : ReqItem}
    (h1 : Product.findById ps it.productId = some p)
    (h2 : findSize p.sizes it.size = some e)
    (h3 : it.quantity ≤ e.stock) :
    reserveItem ps it = .ok (saveProduct ps { p with sizes :=
      (updateFirst (fun s => s.size == it.size)
        (fun en => { en with stock := en.stock - it.quantity }) p.sizes) }) := by
  cases hfi : findIndexJs (fun s => s.size == it.size) p.sizes with
  | none =>
    rw [findIndexJs_eq_none] at hfi
    rw [findSize, hfi] at h2
    exact absurd h2 (by simp)
  | some i =>
    have he : p.sizes.getD i ⟨0, 0⟩ = e := by
      have hf := find?_of_findIndexJs (p := fun s : SizeEntry => s.size == it.size) ⟨0, 0⟩ hfi
      rw [findSize, hf] at h2
      exact Option.some.inj h2
    have hset := set_of_findIndexJs
      (p := fun s : SizeEntry => s.size == it.size)
      (fun en => { en with stock := en.stock - it.quantity }) ⟨0, 0⟩ hfi
    simp only [reserveItem, h1, hfi, he, if_neg (not_lt.mpr h3)]
    rw [← hset, he]

theorem findSize_updateFirst_sub (q : Int) {sizes : List SizeEntry} {sz : Int} {e : SizeEntry}
    (h : findSize sizes sz = some e) :
    findSize (updateFirst (fun s => s.size == sz)
      (fun en => { en with stock := en.stock - q }) sizes) sz =
      some { e with stock := e.stock - q } :=
  find?_updateFirst_pos (p := fun s : SizeEntry => s.size == sz)
    (f := fun en : SizeEntry => { en with stock := en.stock - q })
    (fun a ha => ha) h

theorem findSize_updateFirst_add (q : Int) {sizes : List SizeEntry} {sz : Int} {e : SizeEntry}
    (h : findSize sizes sz = some e) :
    findSize (updateFirst (fun s => s.size == sz)
      (fun en => { en with stock := en.stock + q }) sizes) sz =
      some { e with stock := e.stock + q } :=
  find?_updateFirst_pos (p := fun s : SizeEntry => s.size == sz)
    (f := fun en : SizeEntry => { en with stock := en.stock + q })
    (fun a ha => ha) h

theorem findSize_updateFirst_ne {sz sz' : Int} (hne : sz ≠ sz') (f : SizeEntry → SizeEntry)
    (hf : ∀ en, (f en).size = en.size) (sizes : List SizeEntry) :
    findSize (updateFirst (fun s => s.size == sz') f sizes) sz = findSize sizes sz := by
  apply find?_updateFirst_neg
  intro a ha
  have h1 : a.size = sz' := by simpa using ha
  refine ⟨?_, ?_⟩ <;> simp [h1, hf] <;> omega

theorem stockOf_reserveItem_ok {ps : List Product} {p : Product} {e : SizeEntry} {it : ReqItem}
    (h1 : Product.findById ps it.productId = some p)
    (h2 : findSize p.sizes it.size = some e)
    (h3 : it.quantity ≤ e.stock) :
    ∃ ps2, reserveItem ps it = .ok ps2 ∧
      stockOf ps2 it.productId it.size = some (e.stock - it.quantity) := by
  refine ⟨_, reserveItem_ok h1 h2 h3, ?_⟩
  have hid : ({ p with sizes := (updateFirst (fun s => s.size == it.size)
      (fun en => { en with stock := en.stock - it.quantity }) p.sizes) } : Product).id
      = it.productId := by
    have h0 := productId_of_findById h1
    exact h0
  have hfb := findById_saveProduct_self h1 hid
  have hfs := findSize_updateFirst_sub it.quantity h2
  exact stockOf_intro hfb hfs

theorem stockOf_restoreItem (it : OrderItem) {ps : List Product} {pid : Nat} {sz : Int} {n : Int}
    (h : stockOf ps pid sz = some n) :
    stockOf (restoreItem ps it) pid sz =
      some (n + if it.product = pid ∧ it.size = sz then it.quantity else 0) := by
  obtain ⟨p, e, hp, he, hn⟩ := stockOf_some_elim h
  by_cases hpid : it.product = pid
  · subst hpid
    cases hfi : findIndexJs (fun s : SizeEntry => s.size == it.size) p.sizes with
    | none =>
      have hsz : it.size ≠ sz := by
        intro hcontra
        rw [findIndexJs_eq_none] at hfi
        rw [← hcontra, findSize] at he
        rw [hfi] at he
        simp at he
      simp only [restoreItem, hp, hfi]
      have hres := stockOf_intro hp he
      rw [hres]
      simp [hn, hsz]
    | some i =>
      have hset := set_of_findIndexJs
        (p := fun s : SizeEntry => s.size == it.size)
        (fun en => { en with stock := en.stock + it.quantity }) ⟨0, 0⟩ hfi
      simp only [restoreItem, hp, hfi]
      rw [hset]
      have hid : ({ p with sizes := (updateFirst (fun s : SizeEntry => s.size == it.size)
          (fun en => { en with stock := en.stock + it.quantity }) p.sizes) } : Product).id
          = it.product := by
        have h0 := productId_of_findById hp
        exact h0
      have hfb := findById_saveProduct_self hp hid
      by_cases hsz : it.size = sz
      · subst hsz
        have hfs := findSize_updateFirst_add it.quantity he
        have hres := stockOf_intro hfb hfs
        rw [hres]
        simp [hn]
      · have hfs : findSize (updateFirst (fun s : SizeEntry => s.size == it.size)
            (fun en => { en with stock := en.stock + it.quantity }) p.sizes) sz = some e := by
          rw [findSize_updateFirst_ne (fun hc => hsz hc.symm)
            (fun en => { en with stock := en.stock + it.quantity }) (fun en => rfl)]
          exact he
        have hres := stockOf_intro hfb hfs
        rw [hres]
        simp [hn, hsz]
  · rw [if_neg (by simp [hpid]), add_zero]
    cases hp' : Product.findById ps it.product with
    | none =>
      simp only [restoreItem, hp']
      exact h
    | some q =>
      cases hfi : findIndexJs (fun s : SizeEntry => s.size == it.size) q.sizes with
      | none =>
        simp only [restoreItem, hp', hfi]
        exact h
      | some i =>
        simp only [restoreItem, hp', hfi]
        have hid : ({ q with sizes := (q.sizes.set i
            { q.sizes.getD i ⟨0, 0⟩ with
              stock := (q.sizes.getD i ⟨0, 0⟩).stock + it.quantity }) } : Product).id ≠ pid := by
          show q.id ≠ pid
          rw [productId_of_findById hp']
          exact hpid
        rw [← h]
        simp only [stockOf]
        rw [findById_saveProduct_ne hid]

theorem stockOf_restoreLoop {pid : Nat} {sz : Int} :
    ∀ (items : List OrderItem) {ps : List Product} {n : Int},
      stockOf ps pid sz = some n →
      stockOf (restoreLoop ps items) pid sz = some (n + itemsQty items pid sz) := by
  intro items
  induction items with
  | nil => intro ps n h; simpa [restoreLoop, itemsQty] using h
  | cons it rest ih =>
    intro ps n h
    rw [restoreLoop]
    have step := stockOf_restoreItem it h
    have := ih step
    rw [this]
    by_cases hc : it.product = pid ∧ it.size = sz
    · rw [if_pos hc]
      have hq : itemsQty (it :: rest) pid sz = it.quantity + itemsQty rest pid sz := by
        simp [itemsQty, hc.1, hc.2]
      rw [hq]
      ring_nf
    · rw [if_neg hc, add_zero]
      have hq : itemsQty (it :: rest) pid sz = itemsQty rest pid sz := by
        have : (it.product == pid && it.size == sz) = false := by
          by_cases h1 : it.product = pid
          · have h2 : it.size ≠ sz := fun h2 => hc ⟨h1, h2⟩
            simp [h2]
          · simp [h1]
        simp [itemsQty, this]
      rw [hq]

theorem orderId_of_findById {os : List Order} {oid : Nat} {o : Order}
    (h : Order.findById os oid = some o) : o.id = oid := by
  have := List.find?_some h
  simpa using this

theorem findById_saveOrder_self :
    ∀ {os : List Order} {oid : Nat} {q : Order}, Order.findById os oid = some q →
      ∀ {o2 : Order}, o2.id = oid →
        Order.findById (saveOrder os o2) oid = some o2 := by
  intro os
  induction os with
  | nil => intro oid q h; simp [Order.findById] at h
  | cons a as ih =>
    intro oid q h o2 hid
    by_cases ha : a.id = oid
    · have h2 : (a.id == o2.id) = true := by simp [ha, hid]
      have h3 : (o2.id == oid) = true := by simp [hid]
      simp only [saveOrder, List.map_cons, h2, if_true, Order.findById, List.find?, h3]
    · have h1 : (a.id == oid) = false := by simp [ha]
      simp only [Order.findById, List.find?, h1] at h
      have h2 : (a.id == o2.id) = false := by simp [hid, ha]
      simp only [saveOrder, List.map_cons, h2, Bool.false_eq_true, if_false,
        Order.findById, List.find?, h1]
      exact ih h hid

theorem reserveItem_ok_shape {ps ps2 : List Product} {it : ReqItem}
    (h : reserveItem ps it = .ok ps2) : ∃ p2, ps2 = saveProduct ps p2 := by
  cases hp : Product.findById ps it.productId with
  | none => simp [reserveItem, hp] at h
  | some p =>
    cases hfi : findIndexJs (fun s : SizeEntry => s.size == it.size) p.sizes with
    | none => simp [reserveItem, hp, hfi] at h
    | some i =>
      simp only [reserveItem, hp, hfi] at h
      by_cases hlt : (p.sizes.getD i ⟨0, 0⟩).stock < it.quantity
      · rw [if_pos hlt] at h
        simp at h
      · rw [if_neg hlt] at h
        exact ⟨_, (Except.ok.inj h).symm⟩

/-! ### Claim theorems -/

/-- C1.  A single-item create-order request with quantity within stock
responds 201 and persists the size's stock decremented to `N - Q`; with
quantity above stock it responds with `InsufficientStock` carrying the
available quantity, and the whole state — in particular that product's
stock — is unchanged. -/
theorem C1_single_item_reservation {st : AppState} {req : CreateOrderReq} {it : ReqItem}
    {si : ShippingInfo} {pr : Pricing} {p : Product} {e : SizeEntry} {oid : Nat} {onum : String}
    (hit : req.items = some [it]) (hsi : req.shippingInfo = some si)
    (hpr : req.pricing = some pr)
    (h1 : Product.findById st.products it.productId = some p)
    (h2 : findSize p.sizes it.size = some e) :
    (it.quantity ≤ e.stock →
      (createOrder st req oid onum).2.toStatus = 201 ∧
      stockOf (createOrder st req oid onum).1.products it.productId it.size
        = some (e.stock - it.quantity)) ∧
    (e.stock < it.quantity →
      createOrder st req oid onum
        = (st, .err (.insufficientStock p.name it.size e.stock))) := by
  constructor
  · intro hq
    obtain ⟨ps2, hok, hstock⟩ := stockOf_reserveItem_ok h1 h2 hq
    have hloop : reserveLoop st.products [it] = (ps2, none) := by
      simp only [reserveLoop, hok]
    simp only [createOrder, hit, hsi, hpr, hloop]
    exact ⟨rfl, hstock⟩
  · intro hlt
    have herr := reserveItem_insufficient h1 h2 hlt
    have hloop : reserveLoop st.products [it]
        = (st.products, some (.insufficientStock p.name it.size e.stock)) := by
      simp only [reserveLoop, herr]
    simp only [createOrder, hit, hsi, hpr, hloop]

theorem C1_witness :
    (2 : Int) ≤ 3 ∧
    (createOrder wState wReq 1 "ORD-1").2.toStatus = 201 ∧
    stockOf (createOrder wState wReq 1 "ORD-1").1.products 1 10 = some 1 := by
  have h := (@C1_single_item_reservation wState wReq wItem wShipping wPricing wProduct
      ⟨10, 3⟩ 1 "ORD-1" rfl rfl rfl rfl rfl).1 (by decide)
  exact ⟨by decide, h.1, h.2⟩

/-- C2.  In a two-item request where the first item reserves
successfully and the second names a product that does not resolve, the
response is the product-not-found error, no order is stored, yet the
first product's decremented stock stays persisted — nothing is rolled
back. -/
theorem reserveLoop_append_error {itBad : ReqItem} {rest : List ReqItem}
    {e : CreateOrderError} :
    ∀ {pre : List ReqItem} {ps ps2 : List Product},
      reserveLoop ps pre = (ps2, none) →
      reserveItem ps2 itBad = .error e →
      reserveLoop ps (pre ++ itBad :: rest) = (ps2, some e) := by
  intro pre
  induction pre with
  | nil =>
    intro ps ps2 hpre hbad
    simp only [reserveLoop] at hpre
    injection hpre with hps hsnd
    subst hps
    simp only [List.nil_append, reserveLoop, hbad]
  | cons a pre' ih =>
    intro ps ps2 hpre hbad
    cases hr : reserveItem ps a with
    | error e' =>
      simp only [reserveLoop, hr] at hpre
      injection hpre with hps hsnd
      simp at hsnd
    | ok ps3 =>
      simp only [reserveLoop, hr] at hpre
      rw [List.cons_append]
      simp only [reserveLoop, hr]
      exact ih hpre hbad

/-- C2.  Multi-item requests are checked and decremented one item at a
time, each product persisted individually, and nothing is rolled back:
(i) whenever every item of a prefix reserves successfully and a later
item fails validation with any of the loop's errors (product not
found, size unavailable, insufficient stock), the response is that
error, no order is stored, and the persisted state is exactly the one
the prefix's individual saves produced; (ii) in a two-item request
whose first item reserved Q out of N, any validation failure of the
second item leaves the first product's stock persisted at N - Q while
the request returns the error. -/
theorem C2_no_rollback :
    (∀ (st : AppState) (req : CreateOrderReq) (pre : List ReqItem) (itBad : ReqItem)
      (rest : List ReqItem) (si : ShippingInfo) (pr : Pricing) (ps2 : List Product)
      (e : CreateOrderError) (oid : Nat) (onum : String),
      req.items = some (pre ++ itBad :: rest) →
      req.shippingInfo = some si →
      req.pricing = some pr →
      reserveLoop st.products pre = (ps2, none) →
      reserveItem ps2 itBad = .error e →
      createOrder st req oid onum = ({ st with products := ps2 }, .err e)) ∧
    (∀ (st : AppState) (req : CreateOrderReq) (it1 itBad : ReqItem) (si : ShippingInfo)
      (pr : Pricing) (p : Product) (e : SizeEntry) (ps2 : List Product)
      (e2 : CreateOrderError) (oid : Nat) (onum : String),
      req.items = some [it1, itBad] →
      req.shippingInfo = some si →
      req.pricing = some pr →
      Product.findById st.products it1.productId = some p →
      findSize p.sizes it1.size = some e →
      it1.quantity ≤ e.stock →
      reserveItem st.products it1 = .ok ps2 →
      reserveItem ps2 itBad = .error e2 →
      (createOrder st req oid onum).2 = .err e2 ∧
      stockOf (createOrder st req oid onum).1.products it1.productId it1.size
        = some (e.stock - it1.quantity) ∧
      (createOrder st req oid onum).1.orders = st.orders) := by
  have hmain : ∀ (st : AppState) (req : CreateOrderReq) (pre : List ReqItem)
      (itBad : ReqItem) (rest : List ReqItem) (si : ShippingInfo) (pr : Pricing)
      (ps2 : List Product) (e : CreateOrderError) (oid : Nat) (onum : String),
      req.items = some (pre ++ itBad :: rest) →
      req.shippingInfo = some si →
      req.pricing = some pr →
      reserveLoop st.products pre = (ps2, none) →
      reserveItem ps2 itBad = .error e →
      createOrder st req oid onum = ({ st with products := ps2 }, .err e) := by
    intro st req pre itBad rest si pr ps2 e oid onum hit hsi hpr hpre hbad
    have hloop : reserveLoop st.products (pre ++ itBad :: rest) = (ps2, some e) :=
      reserveLoop_append_error hpre hbad
    simp only [createOrder, hit, hsi, hpr, hloop]
  refine ⟨hmain, ?_⟩
  intro st req it1 itBad si pr p e ps2 e2 oid onum hit hsi hpr h1 h2 h3 hok hbad
  have hpre : reserveLoop st.products [it1] = (ps2, none) := by
    simp only [reserveLoop, hok]
  have hco := hmain st req [it1] itBad [] si pr ps2 e2 oid onum hit hsi hpr hpre hbad
  rw [hco]
  refine ⟨rfl, ?_, rfl⟩
  obtain ⟨ps2b, hok2, hstock⟩ := stockOf_reserveItem_ok h1 h2 h3
  rw [hok] at hok2
  have hps : ps2 = ps2b := Except.ok.inj hok2
  rw [hps]
  exact hstock

theorem C2_witness :
    ((createOrder wState wReq2 1 "ORD-2").2 = .err (.productNotFound "Ghost") ∧
      stockOf (createOrder wState wReq2 1 "ORD-2").1.products 1 10 = some 1 ∧
      (createOrder wState wReq2 1 "ORD-2").1.orders = []) ∧
    ((createOrder wState wReqLateBadSize 1 "ORD-5").2 = .err (.sizeUnavailable 9 "Runner") ∧
      stockOf (createOrder wState wReqLateBadSize 1 "ORD-5").1.products 1 10 = some 1 ∧
      (createOrder wState wReqLateBadSize 1 "ORD-5").1.orders = []) ∧
    ((createOrder wState wReqLateShort 1 "ORD-6").2 = .err (.insufficientStock "Runner" 10 1) ∧
      stockOf (createOrder wState wReqLateShort 1 "ORD-6").1.products 1 10 = some 1 ∧
      (createOrder wState wReqLateShort 1 "ORD-6").1.orders = []) := by
  have hA := C2_no_rollback.2 wState wReq2 wItem wItemGhost wShipping wPricing wProduct
    ⟨10, 3⟩ [⟨1, "Runner", [⟨10, 1⟩, ⟨11, 0⟩], 0, 0⟩] (.productNotFound "Ghost")
    1 "ORD-2" rfl rfl rfl rfl rfl (by decide) rfl rfl
  have hB := C2_no_rollback.2 wState wReqLateBadSize wItem wItemBadSize wShipping wPricing
    wProduct ⟨10, 3⟩ [⟨1, "Runner", [⟨10, 1⟩, ⟨11, 0⟩], 0, 0⟩] (.sizeUnavailable 9 "Runner")
    1 "ORD-5" rfl rfl rfl rfl rfl (by decide) rfl rfl
  have hC := C2_no_rollback.2 wState wReqLateShort wItem wItem wShipping wPricing
    wProduct ⟨10, 3⟩ [⟨1, "Runner", [⟨10, 1⟩, ⟨11, 0⟩], 0, 0⟩]
    (.insufficientStock "Runner" 10 1) 1 "ORD-6" rfl rfl rfl rfl rfl (by decide) rfl rfl
  exact ⟨⟨hA.1, hA.2.1, hA.2.2⟩, ⟨hB.1, hB.2.1, hB.2.2⟩, ⟨hC.1, hC.2.1, hC.2.2⟩⟩

/-- C4.  Reversal is the inverse of reservation: starting from stock
`N`, a successful reservation of `Q` followed by the cancel restore of
the same product/size/quantity returns the stock to exactly `N`. -/
theorem C4_reserve_reverse_inverse {ps : List Product} {p : Product} {e : SizeEntry}
    {it : ReqItem} (oit : OrderItem)
    (h1 : Product.findById ps it.productId = some p)
    (h2 : findSize p.sizes it.size = some e)
    (h3 : it.quantity ≤ e.stock)
    (ho1 : oit.product = it.productId) (ho2 : oit.size = it.size)
    (ho3 : oit.quantity = it.quantity) :
    stockOf ps it.productId it.size = some e.stock ∧
    ∃ ps2, reserveItem ps it = .ok ps2 ∧
      stockOf (restoreItem ps2 oit) it.productId it.size = some e.stock := by
  refine ⟨stockOf_intro h1 h2, ?_⟩
  obtain ⟨ps2, hok, hstock⟩ := stockOf_reserveItem_ok h1 h2 h3
  refine ⟨ps2, hok, ?_⟩
  have hres := stockOf_restoreItem oit hstock
  rw [hres, if_pos ⟨ho1, ho2⟩, ho3]
  ring_nf

theorem C4_witness :
    stockOf wState.products 1 10 = some 3 ∧
    reserveItem wState.products wItem
      = .ok [⟨1, "Runner", [⟨10, 1⟩, ⟨11, 0⟩], 0, 0⟩] ∧
    stockOf (restoreItem [⟨1, "Runner", [⟨10, 1⟩, ⟨11, 0⟩], 0, 0⟩] wOrderItem) 1 10
      = some 3 := by
  have h := @C4_reserve_reverse_inverse wState.products wProduct ⟨10, 3⟩ wItem wOrderItem
    rfl rfl (by decide) rfl rfl rfl
  obtain ⟨ha, ps2, hok, hrest⟩ := h
  have hps2 : ps2 = [⟨1, "Runner", [⟨10, 1⟩, ⟨11, 0⟩], 0, 0⟩] := by
    have hok2 : reserveItem wState.products wItem
        = .ok [(⟨1, "Runner", [⟨10, 1⟩, ⟨11, 0⟩], 0, 0⟩ : Product)] := rfl
    rw [hok] at hok2
    exact Except.ok.inj hok2
  rw [hps2] at hok hrest
  exact ⟨ha, hok, hrest⟩

/-- C9.  Whenever create-order succeeds, the stored order carries the
client-supplied payment intent id, `paymentInfo.paymentStatus` is
hard-coded `paid` (never `pending`), and `orderStatus` starts at the
schema default `processing`. -/
theorem C9_order_created_paid {st : AppState} {req : CreateOrderReq}
    {items : List ReqItem} {si : ShippingInfo} {pr : Pricing} {ps2 : List Product}
    {oid : Nat} {onum : String}
    (hit : req.items = some items) (hsi : req.shippingInfo = some si)
    (hpr : req.pricing = some pr)
    (hloop : reserveLoop st.products items = (ps2, none)) :
    ∃ o, (createOrder st req oid onum).2 = .ok o ∧
      o.paymentInfo.paymentStatus = .paid ∧
      o.orderStatus = .processing ∧
      o.paymentInfo.stripePaymentIntentId = req.paymentIntentId ∧
      (createOrder st req oid onum).1.orders = st.orders ++ [o] := by
  simp only [createOrder, hit, hsi, hpr, hloop]
  exact ⟨_, rfl, rfl, rfl, rfl, rfl⟩

theorem C9_witness :
    ((createOrder wState wReq 1 "ORD-1").2.orderOut.map
      (fun o => (o.paymentInfo.paymentStatus, o.orderStatus,
        o.paymentInfo.stripePaymentIntentId)))
      = some (.paid, .processing, some "pi_123") := by
  obtain ⟨o, hok, hpaid, hproc, hpi, _⟩ :=
    @C9_order_created_paid wState wReq [wItem] wShipping wPricing
      [⟨1, "Runner", [⟨10, 1⟩, ⟨11, 0⟩], 0, 0⟩] 1 "ORD-1" rfl rfl rfl rfl
  rw [hok]
  simp [CreateOrderResp.orderOut, hpaid, hproc, hpi, wReq]

/-- C5 as stated is false: a request whose size has no matching entry
is answered with HTTP 400, not 404 (the 404 is reserved for a missing
product).  Concretely, product 1 has sizes 10 and 11 and the request
asks for size 9. -/
theorem C5_counterexample :
    (createOrder wState wReqBadSize 1 "ORD-3").2.toStatus = 400 ∧
    ¬ (createOrder wState wReqBadSize 1 "ORD-3").2.toStatus = 404 := by
  constructor
  · rfl
  · decide

/-- C5 amended: create-order responds 404 when the product id does not
resolve, and 400 (`SizeUnavailable`) when the product exists but no
size entry matches. -/
theorem C5_amended_statuses {st : AppState} {req : CreateOrderReq} {it : ReqItem}
    {si : ShippingInfo} {pr : Pricing} {oid : Nat} {onum : String}
    (hit : req.items = some [it]) (hsi : req.shippingInfo = some si)
    (hpr : req.pricing = some pr) :
    (Product.findById st.products it.productId = none →
      (createOrder st req oid onum).2 = .err (.productNotFound it.productName) ∧
      (createOrder st req oid onum).2.toStatus = 404) ∧
    (∀ p, Product.findById st.products it.productId = some p →
      findSize p.sizes it.size = none →
      (createOrder st req oid onum).2 = .err (.sizeUnavailable it.size p.name) ∧
      (createOrder st req oid onum).2.toStatus = 400) := by
  constructor
  · intro hnone
    have herr : reserveItem st.products it = .error (.productNotFound it.productName) := by
      simp only [reserveItem, hnone]
    have hloop : reserveLoop st.products [it]
        = (st.products, some (.productNotFound it.productName)) := by
      simp only [reserveLoop, herr]
    have hco : createOrder st req oid onum
        = ({ st with products := st.products }, .err (.productNotFound it.productName)) := by
      simp only [createOrder, hit, hsi, hpr, hloop]
    rw [hco]
    exact ⟨rfl, rfl⟩
  · intro p hp hsz
    have hfi : findIndexJs (fun s : SizeEntry => s.size == it.size) p.sizes = none := by
      rw [findIndexJs_eq_none]
      exact hsz
    have herr : reserveItem st.products it = .error (.sizeUnavailable it.size p.name) := by
      simp only [reserveItem, hp, hfi]
    have hloop : reserveLoop st.products [it]
        = (st.products, some (.sizeUnavailable it.size p.name)) := by
      simp only [reserveLoop, herr]
    have hco : createOrder st req oid onum
        = ({ st with products := st.products }, .err (.sizeUnavailable it.size p.name)) := by
      simp only [createOrder, hit, hsi, hpr, hloop]
    rw [hco]
    exact ⟨rfl, rfl⟩

theorem C5_amended_witness :
    ((createOrder ⟨[], []⟩ wReqBadSize 1 "ORD-4").2 = .err (.productNotFound "Runner") ∧
      (createOrder ⟨[], []⟩ wReqBadSize 1 "ORD-4").2.toStatus = 404) ∧
    ((createOrder wState wReqBadSize 1 "ORD-3").2 = .err (.sizeUnavailable 9 "Runner") ∧
      (createOrder wState wReqBadSize 1 "ORD-3").2.toStatus = 400) := by
  constructor
  · exact (@C5_amended_statuses ⟨[], []⟩ wReqBadSize wItemBadSize wShipping wPricing
      1 "ORD-4" rfl rfl rfl).1 rfl
  · exact (@C5_amended_statuses wState wReqBadSize wItemBadSize wShipping wPricing
      1 "ORD-3" rfl rfl rfl).2 wProduct rfl rfl

/-- C10.  A guest order (null user reference) can never be cancelled
through the owner endpoint: for any authenticated caller the ownership
check dereferences the null reference, the thrown error is caught, the
response is 500, and the state (order and all stock) is unchanged. -/
theorem C10_guest_order_cancel_500 {st : AppState} {oid : Nat} {o : Order} (uid : Nat)
    (h1 : Order.findById st.orders oid = some o)
    (h2 : o.user = none) :
    cancelOrder st (.tok uid) oid = (st, 500) := by
  simp only [cancelOrder, h1, h2]

theorem C10_witness :
    cancelOrder wStateOrders (.tok 7) 6 = (wStateOrders, 500) :=
  C10_guest_order_cancel_500 7 rfl rfl

/-- C3.  Owner cancel of a `processing` order by its owner succeeds
(200), stores the order as `cancelled` with
`paymentInfo.paymentStatus = refunded`, and increases every resolvable
product/size stock by the total quantity the order's items hold for
that product/size. -/
theorem C3_owner_cancel_processing {st : AppState} {oid uid : Nat} {o : Order}
    (h1 : Order.findById st.orders oid = some o)
    (h2 : o.user = some uid)
    (h3 : o.orderStatus = .processing) :
    (cancelOrder st (.tok uid) oid).2 = 200 ∧
    Order.findById (cancelOrder st (.tok uid) oid).1.orders oid
      = some { o with
          orderStatus := .cancelled,
          paymentInfo := { o.paymentInfo with paymentStatus := .refunded } } ∧
    (∀ pid sz n, stockOf st.products pid sz = some n →
      stockOf (cancelOrder st (.tok uid) oid).1.products pid sz
        = some (n + itemsQty o.items pid sz)) := by
  have hco : cancelOrder st (.tok uid) oid
      = ({ products := restoreLoop st.products o.items,
           orders := saveOrder st.orders { o with
             orderStatus := .cancelled,
             paymentInfo := { o.paymentInfo with paymentStatus := .refunded } } }, 200) := by
    simp [cancelOrder, h1, h2, h3]
  rw [hco]
  refine ⟨rfl, ?_, ?_⟩
  · have hid : ({ o with
        orderStatus := OrderStatus.cancelled,
        paymentInfo := { o.paymentInfo with paymentStatus := .refunded } } : Order).id
        = oid := by
      have h0 := orderId_of_findById h1
      exact h0
    exact findById_saveOrder_self h1 hid
  · intro pid sz n h
    exact stockOf_restoreLoop o.items h

theorem C3_witness :
    (cancelOrder wStateOrders (.tok 7) 5).2 = 200 ∧
    Order.findById (cancelOrder wStateOrders (.tok 7) 5).1.orders 5
      = some ⟨5, some 7, "ORD-9", [wOrderItem], wShipping, wPricing,
          ⟨some "pi_9", .refunded⟩, .cancelled⟩ ∧
    stockOf (cancelOrder wStateOrders (.tok 7) 5).1.products 1 10 = some 5 := by
  have h := @C3_owner_cancel_processing wStateOrders 5 7 wOrder rfl rfl rfl
  refine ⟨h.1, ?_, ?_⟩
  · exact h.2.1
  · exact h.2.2 1 10 3 rfl

/-- C6.  The admin direct status update validates `orderStatus` against
the enum only: with no transition guard it moves any current state to
any parsed state, touches no product stock, and leaves every other
field of the order — in particular `paymentInfo` — unchanged. -/
theorem C6_admin_direct_status {st : AppState} {u : AuthUser} {oid : Nat} {o : Order}
    {s : String} {ns : OrderStatus}
    (hrole : u.role = .admin)
    (hparse : parseOrderStatus s = some ns)
    (h1 : Order.findById st.orders oid = some o) :
    (adminUpdateOrderStatus st (.found u) oid s).2 = 200 ∧
    (adminUpdateOrderStatus st (.found u) oid s).1.products = st.products ∧
    Order.findById (adminUpdateOrderStatus st (.found u) oid s).1.orders oid
      = some { o with orderStatus := ns } := by
  have hco : adminUpdateOrderStatus st (.found u) oid s
      = ({ st with orders := saveOrder st.orders { o with orderStatus := ns } }, 200) := by
    simp [adminUpdateOrderStatus, hrole, hparse, h1]
  rw [hco]
  refine ⟨rfl, rfl, ?_⟩
  have hid : ({ o with orderStatus := ns } : Order).id = oid := by
    have h0 := orderId_of_findById h1
    exact h0
  exact findById_saveOrder_self h1 hid

theorem C6_witness :
    (adminUpdateOrderStatus wStateOrders (.found wAdmin) 5 "cancelled").2 = 200 ∧
    (adminUpdateOrderStatus wStateOrders (.found wAdmin) 5 "cancelled").1.products
      = [wProduct] ∧
    Order.findById (adminUpdateOrderStatus wStateOrders (.found wAdmin) 5 "cancelled").1.orders 5
      = some ⟨5, some 7, "ORD-9", [wOrderItem], wShipping, wPricing,
          ⟨some "pi_9", .paid⟩, .cancelled⟩ := by
  have h := @C6_admin_direct_status wStateOrders wAdmin 5 wOrder "cancelled" .cancelled
    rfl (by decide) rfl
  exact ⟨h.1, h.2.1, h.2.2⟩

theorem findById_updateById {f : Product → Product} (hf : ∀ p, (f p).id = p.id) :
    ∀ (ps : List Product) (pid : Nat),
      Product.findById (ps.map (fun p => if p.id == pid then f p else p)) pid
        = (Product.findById ps pid).map f := by
  intro ps
  induction ps with
  | nil => intro pid; simp [Product.findById]
  | cons a as ih =>
    intro pid
    by_cases ha : a.id = pid
    · have h1 : (a.id == pid) = true := by simp [ha]
      have h2 : ((f a).id == pid) = true := by simp [hf, ha]
      simp only [List.map_cons, h1, if_true, Product.findById, List.find?, h2,
        Option.map_some']
    · have h1 : (a.id == pid) = false := by simp [ha]
      simp only [List.map_cons, h1, Bool.false_eq_true, if_false, Product.findById,
        List.find?]
      exact ih pid

theorem foldl_add_rating (rs : List Review) :
    ∀ x : Rat, rs.foldl (fun sum r => sum + (r.rating : Rat)) x
      = x + ((rs.map (fun r => (r.rating : Rat))).sum) := by
  induction rs with
  | nil => intro x; simp
  | cons r rest ih =>
    intro x
    simp only [List.foldl_cons, List.map_cons, List.sum_cons]
    rw [ih]
    ring

theorem mathRound_eq {x : Rat} {z : Int} (h1 : (z : Rat) ≤ x + 1 / 2)
    (h2 : x + 1 / 2 < (z : Rat) + 1) : mathRound x = z := by
  rw [mathRound, Int.floor_eq_iff]
  exact ⟨h1, h2⟩

theorem specAverage_reviews (rs : List Review) (h : ¬ rs.length = 0) :
    specAverage (rs.map (fun r => r.rating))
      = (mathRound (((rs.foldl (fun sum r => sum + (r.rating : Rat)) 0)
          / (rs.length : Rat)) * 10) : Rat) / 10 := by
  simp only [specAverage, List.length_map]
  rw [if_neg h, foldl_add_rating, zero_add, List.map_map]
  simp only [Function.comp_def]

/-- C7.  The rating aggregator recomputes from the full current review
set of the product: with no matching reviews it stores
`averageRating = 0`, `totalReviews = 0`; otherwise the mean of the
ratings rounded to one decimal and the review count.  Concretely,
ratings [5,4,3] give (4, 3); deleting the rating-3 review gives
(4.5, 2); an empty review set gives (0, 0). -/
theorem C7_rating_aggregator :
    (∀ (ps : List Product) (reviews : List Review) (pid : Nat) (p : Product),
      Product.findById ps pid = some p →
      Product.findById (updateProductRating ps reviews pid) pid
        = some { p with
            averageRating :=
              specAverage ((reviews.filter (fun r => r.product == pid)).map
                (fun r => r.rating)),
            totalReviews := (reviews.filter (fun r => r.product == pid)).length }) ∧
    Product.findById (updateProductRating [wProduct] wReviews 1) 1
      = some { wProduct with averageRating := 4, totalReviews := 3 } ∧
    Product.findById (updateProductRating [wProduct] (deleteReview wReviews 3) 1) 1
      = some { wProduct with averageRating := 9 / 2, totalReviews := 2 } ∧
    Product.findById (updateProductRating [wProduct] [] 1) 1
      = some { wProduct with averageRating := 0, totalReviews := 0 } := by
  have hgen : ∀ (ps : List Product) (reviews : List Review) (pid : Nat) (p : Product),
      Product.findById ps pid = some p →
      Product.findById (updateProductRating ps reviews pid) pid
        = some { p with
            averageRating :=
              specAverage ((reviews.filter (fun r => r.product == pid)).map
                (fun r => r.rating)),
            totalReviews := (reviews.filter (fun r => r.product == pid)).length } := by
    intro ps reviews pid p hp
    by_cases hlen : (reviews.filter (fun r => r.product == pid)).length = 0
    · simp only [updateProductRating]
      rw [if_pos hlen]
      rw [findById_updateById
        (f := fun q => { q with averageRating := 0, totalReviews := 0 })
        (fun q => rfl) ps pid, hp]
      simp only [Option.map_some']
      have hs : specAverage ((reviews.filter (fun r => r.product == pid)).map
          (fun r => r.rating)) = 0 := by
        simp [specAverage, hlen]
      rw [hs, hlen]
    · simp only [updateProductRating]
      rw [if_neg hlen]
      rw [findById_updateById
        (f := fun q => { q with
          averageRating := (mathRound ((reviews.filter
            (fun r => r.product == pid)).foldl (fun sum r => sum + (r.rating : Rat)) 0
            / (((reviews.filter (fun r => r.product == pid)).length : Rat)) * 10) : Rat) / 10,
          totalReviews := (reviews.filter (fun r => r.product == pid)).length })
        (fun q => rfl) ps pid, hp]
      simp only [Option.map_some']
      rw [specAverage_reviews _ hlen]
  refine ⟨hgen, ?_, ?_, ?_⟩
  · have h1 := hgen [wProduct] wReviews 1 wProduct rfl
    rw [h1]
    have hmap : (wReviews.filter (fun r => r.product == 1)).map (fun r => r.rating)
        = [5, 4, 3] := rfl
    rw [hmap]
    have hs1 : specAverage [5, 4, 3] = 4 := by
      have hm : mathRound (((([5, 4, 3] : List Int).map (fun r : Int => (r : Rat))).sum
          / (([5, 4, 3] : List Int).length : Rat)) * 10) = 40 := by
        apply mathRound_eq <;> norm_num
      simp only [specAverage]
      rw [if_neg (by norm_num), hm]
      norm_num
    rw [hs1]
    rfl
  · have h1 := hgen [wProduct] (deleteReview wReviews 3) 1 wProduct rfl
    rw [h1]
    have hmap : ((deleteReview wReviews 3).filter (fun r => r.product == 1)).map
        (fun r => r.rating) = [5, 4] := rfl
    rw [hmap]
    have hs2 : specAverage [5, 4] = 9 / 2 := by
      have hm : mathRound (((([5, 4] : List Int).map (fun r : Int => (r : Rat))).sum
          / (([5, 4] : List Int).length : Rat)) * 10) = 45 := by
        apply mathRound_eq <;> norm_num
      simp only [specAverage]
      rw [if_neg (by norm_num), hm]
      norm_num
    rw [hs2]
    rfl
  · have h1 := hgen [wProduct] [] 1 wProduct rfl
    rw [h1]
    have hs3 : specAverage ((([] : List Review).filter (fun r => r.product == 1)).map
        (fun r => r.rating)) = 0 := by
      simp [specAverage]
    rw [hs3]
    rfl

theorem C7_witness :
    Product.findById (updateProductRating [wProduct] wReviews 1) 1
      = some { wProduct with
          averageRating :=
            specAverage ((wReviews.filter (fun r => r.product == 1)).map
              (fun r => r.rating)),
          totalReviews := (wReviews.filter (fun r => r.product == 1)).length } :=
  C7_rating_aggregator.1 [wProduct] wReviews 1 wProduct rfl

theorem filter_ne_of_not_mem {l : List Nat} {u : Nat} (h : u ∉ l) :
    l.filter (fun x => x ≠ u) = l := by
  induction l with
  | nil => rfl
  | cons a as ih =>
    have ha : a ≠ u := fun he => h (he ▸ List.mem_cons_self a as)
    have has : u ∉ as := fun hm => h (List.mem_cons_of_mem a hm)
    simp only [List.filter_cons]
    rw [if_pos (by simp [ha]), ih has]

theorem length_filter_ne_succ {u : Nat} :
    ∀ {l : List Nat}, l.Nodup → u ∈ l →
      (l.filter (fun x => x ≠ u)).length + 1 = l.length := by
  intro l
  induction l with
  | nil => intro _ hm; simp at hm
  | cons a as ih =>
    intro hd hm
    rw [List.nodup_cons] at hd
    rcases List.mem_cons.mp hm with he | hmem
    · subst he
      have hfe : as.filter (fun x => x ≠ u) = as := filter_ne_of_not_mem hd.1
      simp only [List.filter_cons]
      rw [if_neg (by simp), hfe]
      simp
    · have ha : a ≠ u := fun he2 => hd.1 (he2 ▸ hmem)
      have htail := ih hd.2 hmem
      simp only [List.filter_cons, List.length_cons]
      rw [if_pos (by simp [ha])]
      simp only [List.length_cons]
      omega

/-- C8.  `helpful` always equals the cardinality of the `helpfulBy`
set: it holds at review creation (0 and empty), it is preserved by the
helpful-vote toggle (which updates set and counter together), and a
user who has not voted and toggles twice leaves the review at its
original count with the user absent from `helpfulBy`. -/
theorem C8_helpful_invariant :
    (∀ (i pd u : Nat) (rt : Int), helpfulInv (mkReview i pd u rt)) ∧
    (∀ (r : Review) (u : Nat), helpfulInv r → helpfulInv (toggleHelpful r u)) ∧
    (∀ (r : Review) (u : Nat), helpfulInv r → u ∉ r.helpfulBy →
      (toggleHelpful (toggleHelpful r u) u).helpful = r.helpful ∧
      (toggleHelpful (toggleHelpful r u) u).helpfulBy = r.helpfulBy ∧
      u ∉ (toggleHelpful (toggleHelpful r u) u).helpfulBy) := by
  refine ⟨?_, ?_, ?_⟩
  · intro i pd u rt
    exact ⟨List.nodup_nil, rfl⟩
  · rintro r u ⟨hnd, hlen⟩
    by_cases hm : u ∈ r.helpfulBy
    · simp only [toggleHelpful]
      rw [if_pos hm]
      refine ⟨hnd.filter _, ?_⟩
      show max 0 (r.helpful - 1) = ((r.helpfulBy.filter (fun id => id ≠ u)).length : Int)
      have hlf := length_filter_ne_succ hnd hm
      rw [hlen]
      rw [max_eq_right (by omega : (0 : Int) ≤ (r.helpfulBy.length : Int) - 1)]
      omega
    · simp only [toggleHelpful]
      rw [if_neg hm]
      constructor
      · simp [List.nodup_append, hnd, hm]
      · show r.helpful + 1 = ((r.helpfulBy ++ [u]).length : Int)
        rw [hlen]
        simp
  · rintro r u ⟨hnd, hlen⟩ hm
    have h1 : toggleHelpful r u
        = { r with helpfulBy := r.helpfulBy ++ [u], helpful := r.helpful + 1 } := by
      simp only [toggleHelpful]
      rw [if_neg hm]
    have hm2 : u ∈ r.helpfulBy ++ [u] := by simp
    have h2 : toggleHelpful (toggleHelpful r u) u
        = { r with
            helpfulBy := (r.helpfulBy ++ [u]).filter (fun id => id ≠ u),
            helpful := max 0 (r.helpful + 1 - 1) } := by
      rw [h1]
      simp only [toggleHelpful]
      rw [if_pos hm2]
    have hfb : (r.helpfulBy ++ [u]).filter (fun id => id ≠ u) = r.helpfulBy := by
      rw [List.filter_append, filter_ne_of_not_mem hm]
      simp
    have hh : max 0 (r.helpful + 1 - 1) = r.helpful := by
      rw [add_sub_cancel_right, max_eq_right]
      rw [hlen]
      positivity
    rw [h2, hfb, hh]
    exact ⟨rfl, rfl, hm⟩

theorem C8_witness :
    helpfulInv (mkReview 1 1 7 5) ∧
    (toggleHelpful (toggleHelpful (mkReview 1 1 7 5) 9) 9).helpful = 0 ∧
    (toggleHelpful (toggleHelpful (mkReview 1 1 7 5) 9) 9).helpfulBy = [] ∧
    9 ∉ (toggleHelpful (toggleHelpful (mkReview 1 1 7 5) 9) 9).helpfulBy := by
  have hinv := C8_helpful_invariant.1 1 1 7 5
  have h := C8_helpful_invariant.2.2 (mkReview 1 1 7 5) 9 hinv (by simp [mkReview])
  exact ⟨hinv, h.1, h.2.1, h.2.2⟩

end ShoeMart
